import Mathlib

/-!
Shallow embedding of the load orchestrator of `odbc2deltalake`
(`src/odbc2deltalake/db_to_delta.py`, helped by `src/odbc2deltalake/metadata.py`).

The embedding has three layers:

* a relational layer: tables are Lean lists of rows, `UNION ALL` is
  concatenation, `EXCEPT` is the distinct set difference, and an SQL anti
  join is a filter.  This gives meaning to `write_latest_pk`, to the delete
  detection of `do_deletes` and to the strange-update queries of
  `_handle_additional_updates`;
* a control-flow layer: the side effects of `exec_write_db_to_delta`,
  `do_full_load`, `do_append_inserts_load`, `do_delta_load` and
  `_handle_additional_updates` are event traces.  Data-dependent branches
  (row counts, watermarks, existence checks) are driven by oracle fields of
  an environment record, mirroring the values the code reads back from the
  lake engine;
* a recovery layer: the `try/except/finally` wrapper of
  `exec_write_db_to_delta` (restore of `latest_pk`, lock removal, logger
  flush) modelled on its own.
-/

/-- Generated-column kind of a source column (metadata.py,
`InformationSchemaColInfo.generated_always_type_desc`). -/
inductive GeneratedAlwaysType
  | not_applicable
  | as_row_start
  | as_row_end
deriving DecidableEq

/-- Column metadata record discovered from INFORMATION_SCHEMA
(metadata.py, `InformationSchemaColInfo`). -/
structure InformationSchemaColInfo where
  column_name : String
  data_type : String
  column_default : Option String
  is_nullable : Bool
  character_maximum_length : Option Int
  numeric_precision : Option Int
  numeric_scale : Option Int
  datetime_precision : Option Int
  generated_always_type_desc : Option GeneratedAlwaysType
  is_identity : Bool
deriving DecidableEq

/-- Modelled from the spec: `WriteConfig.load_mode` ranges over
`{auto, overwrite, append, force_full, simple_delta, append_inserts}`
(the `WriteConfig` record lives in `write_init.py`, which is not among the
sources; `db_to_delta.py` compares the field against the four literals
`overwrite`, `append_inserts`, `force_full` and `simple_delta`). -/
inductive LoadMode
  | auto
  | overwrite
  | append
  | force_full
  | simple_delta
  | append_inserts
deriving DecidableEq

/-- Write mode of a delta write (the `mode` argument of
`source_write_sql_to_delta` and `local_execute_sql_to_delta`). -/
inductive WMode
  | overwrite
  | append
deriving DecidableEq

/-- UNION ALL of several operand row lists: plain concatenation, duplicates
kept (`sql_glot_utils.union` with `distinct=False`). -/
def union_all {A : Type} (qs : List (List A)) : List A := qs.flatten

/-- SQL anti join: keep the left rows having no match on the right
(sqlglot `join_type="anti"` as used in `write_latest_pk`). -/
def anti_join {A B : Type} (l : List A) (r : List B) (f : A → B → Bool) : List A :=
  l.filter (fun a => !(r.any (f a)))

/-- SQL EXCEPT: the distinct rows of the left operand that do not occur in
the right operand. -/
def sql_except {A : Type} [DecidableEq A] (l r : List A) : List A :=
  (l.filter (fun a => decide (a ∉ r))).dedup

/-- Join condition comparing the primary-key component of two
`(pk, delta_col)` rows, as built by the `ex.and_` of per-column equalities
over the pk columns. -/
def pk_eq {K D E : Type} [DecidableEq K] (x : K × D) (y : K × E) : Bool :=
  decide (x.1 = y.1)

/-- Worker loop of `_list_to_chunks` (db_to_delta.py lines 662-670): the
current partial chunk is grown one item at a time and yielded as soon as it
reaches `chunk_size`; a non-empty final partial chunk is yielded at the end. -/
def ltc_go {T : Type} (chunk_size : Nat) : List T → List T → List (List T)
  | [], chunk => if chunk.length > 0 then [chunk] else []
  | x :: xs, chunk =>
    if (chunk ++ [x]).length ≥ chunk_size then (chunk ++ [x]) :: ltc_go chunk_size xs []
    else ltc_go chunk_size xs (chunk ++ [x])

/-- `_list_to_chunks(input, chunk_size)` (db_to_delta.py lines 662-670). -/
def list_to_chunks {T : Type} (input : List T) (chunk_size : Nat) : List (List T) :=
  ltc_go chunk_size input []

/-- Outcome of the load-mode dispatch of `exec_write_db_to_delta`
(db_to_delta.py lines 155-183).  `config_error` is the `assert` failing when
`append_inserts` is requested without any usable delta column. -/
inductive LoadAction
  | full (m : WMode)
  | append_inserts_load (c : InformationSchemaColInfo)
  | delta_load (simple : Bool)
  | config_error
deriving DecidableEq

/-- Effective delta column inside the `append_inserts` branch: when no delta
column is configured and the single primary-key column is an identity column,
that column is picked (db_to_delta.py lines 163-164). -/
def append_inserts_delta_col (delta_col : Option InformationSchemaColInfo)
    (pk_cols : List InformationSchemaColInfo) : Option InformationSchemaColInfo :=
  match delta_col, pk_cols with
  | none, [p] => if p.is_identity then some p else none
  | d, _ => d

/-- Load-mode dispatch of `exec_write_db_to_delta` (db_to_delta.py lines
155-183). -/
def dispatch (delta_exists : Bool) (load_mode : LoadMode)
    (delta_col : Option InformationSchemaColInfo)
    (pk_cols : List InformationSchemaColInfo) : LoadAction :=
  if delta_exists = false ∨ load_mode = LoadMode.overwrite then
    LoadAction.full WMode.overwrite
  else if load_mode = LoadMode.append_inserts then
    match append_inserts_delta_col delta_col pk_cols with
    | some c => LoadAction.append_inserts_load c
    | none => LoadAction.config_error
  else if delta_col = none ∨ pk_cols.length = 0 ∨ load_mode = LoadMode.force_full then
    LoadAction.full WMode.append
  else
    LoadAction.delta_load (decide (load_mode = LoadMode.simple_delta))

/-- Payload of a source statement writing to `delta_2` inside
`_handle_additional_updates`: `full_sql("[]")` (no rows) or
`full_sql(json.dumps(chunk))` for a chunk of primary-key tuples. -/
inductive AUStmt (K : Type)
  | empty_json
  | chunk (c : List K)
deriving DecidableEq

/-- Side effects of `_handle_additional_updates` (db_to_delta.py lines
673-904).  `replay_delta_1 w2` is the `_load_updates_to_delta` call of the
replay branch, overwriting `delta_1` with the rows whose delta column exceeds
the secondary watermark `w2`. -/
inductive AUEv (K D : Type)
  | write_delta_2 (stmt : AUStmt K) (m : WMode)
  | warn
  | replay_delta_1 (w2 : Option D)
  | append_delta_1_to_delta
  | append_delta_2_to_delta
deriving DecidableEq

/-- Inputs of `_handle_additional_updates`, with tables projected to
`(pk tuple, delta_col value)` rows.  `sql_len` abstracts
`len(full_sql(json.dumps(chunk)))`; `replay_count` is the row count the
replayed `_load_updates_to_delta` observes in `delta_1`. -/
structure AUInput (K D : Type) where
  primary_keys_ts : List (K × D)
  last_pk : List (K × D)
  delta_1 : List (K × D)
  no_complex_entries_load : Bool
  sql_len : List K → Nat
  replay_count : Nat

/-- View `additional_updates`: `primary_keys_ts EXCEPT latest_pk@old_version`
over `(pk..., delta_col)` (db_to_delta.py lines 698-718). -/
def additional_updates {K D : Type} [DecidableEq K] [DecidableEq D]
    (i : AUInput K D) : List (K × D) :=
  sql_except i.primary_keys_ts i.last_pk

/-- View `real_additional_updates`: `additional_updates EXCEPT delta_1` on
the pk columns only (db_to_delta.py lines 720-738). -/
def real_additional_updates {K D : Type} [DecidableEq K] [DecidableEq D]
    (i : AUInput K D) : List K :=
  sql_except ((additional_updates i).map Prod.fst) (i.delta_1.map Prod.fst)

/-- Estimated JSON size of one primary-key tuple (db_to_delta.py lines
850-861). -/
def char_size_pks (pk_cols : List InformationSchemaColInfo) : Nat :=
  (pk_cols.map (fun p =>
    5 + (if p.data_type ∈ ["bit", "int", "bigint", "tinyint", "bool", "smallint"]
         then 10 else 40))).sum

/-- `batch_size = max(10, int(7000 / char_size_pks))` (db_to_delta.py line
862). -/
def batch_size (pk_cols : List InformationSchemaColInfo) : Nat :=
  max 10 (7000 / char_size_pks pk_cols)

/-- Chunk emission loop of the chunked OPENJSON branch (db_to_delta.py lines
873-898): each statement is the chunk it ships together with its write mode;
an oversized chunk is split in half and shipped as two statements. -/
def emit_chunks {K : Type} (sql_len : List K → Nat) :
    List (List K) → Bool → List (List K × WMode)
  | [], _ => []
  | c :: rest, first =>
    (if sql_len c > 7000 then
      [(c.take (c.length / 2), if first then WMode.overwrite else WMode.append),
       (c.drop (c.length / 2), WMode.append)]
    else
      [(c, if first then WMode.overwrite else WMode.append)])
    ++ emit_chunks sql_len rest false

/-- Events of the chunked OPENJSON branch: the emitted `delta_2` statements
followed by the append of `delta_2` into `delta/` (db_to_delta.py lines
847-904). -/
def chunked_au_events {K D : Type} [DecidableEq K] [DecidableEq D]
    (pk_cols : List InformationSchemaColInfo) (i : AUInput K D) : List (AUEv K D) :=
  (emit_chunks i.sql_len
      (list_to_chunks (real_additional_updates i) (batch_size pk_cols)) true).map
    (fun s => AUEv.write_delta_2 (AUStmt.chunk s.1) s.2)
  ++ [AUEv.append_delta_2_to_delta]

/-- Events of the replay branch (db_to_delta.py lines 809-846): empty
`delta_2`, a warning, then the timestamp-update step replayed with the
secondary watermark `MIN(delta_col) FROM additional_updates`; the replayed
step appends `delta_1` into `delta/` when it loaded at least one row. -/
def replay_au_events {K D : Type} [DecidableEq K] [DecidableEq D] [LinearOrder D]
    (i : AUInput K D) : List (AUEv K D) :=
  [AUEv.write_delta_2 AUStmt.empty_json WMode.overwrite, AUEv.warn,
   AUEv.replay_delta_1 (((additional_updates i).map Prod.snd).min?)]
  ++ (if i.replay_count > 0 then [AUEv.append_delta_1_to_delta] else [])

/-- Branch selection and effects of `_handle_additional_updates`
(db_to_delta.py lines 807-904). -/
def handle_additional_updates {K D : Type} [DecidableEq K] [DecidableEq D]
    [LinearOrder D] (pk_cols : List InformationSchemaColInfo)
    (i : AUInput K D) : List (AUEv K D) :=
  let update_count := (real_additional_updates i).length
  if update_count = 0 then
    [AUEv.write_delta_2 AUStmt.empty_json WMode.overwrite]
  else if update_count > 1000 ∨ i.no_complex_entries_load = true then
    replay_au_events i
  else
    chunked_au_events pk_cols i

/-- The `latest_pk` manifest query of `write_latest_pk` (db_to_delta.py lines
223-331): `UNION ALL` of `delta_2`, of `delta_1` anti-joined against
`delta_2` on the pk columns, and of `primary_keys_ts` anti-joined against
`delta_2` and against `delta_1` on the pk columns; every operand is already
projected to `(pk..., delta_col)`. -/
def write_latest_pk {K D : Type} [DecidableEq K]
    (delta_2 delta_1 primary_keys_ts : List (K × D)) : List (K × D) :=
  union_all
    [delta_2,
     anti_join delta_1 delta_2 pk_eq,
     anti_join (anti_join primary_keys_ts delta_2 pk_eq) delta_1 pk_eq]

/-- Value of the `__valid_from` column of a row, as an (unevaluated) SQL
expression: lake-side `CURRENT_TIMESTAMP AT TIME ZONE 'UTC'` for tombstones,
source-side `CAST(GETUTCDATE() AS datetime2(6))` for normal rows. -/
inductive SqlTimestampExpr
  | current_timestamp_at_utc
  | getutcdate_utc
deriving DecidableEq

/-- One output row of the `deletes_with_schema` query of `do_deletes`:
the pk tuple, the non-pk columns (name and value, `none` being SQL NULL),
and the three augmentation columns. -/
structure DeleteRow (K V : Type) where
  pk : K
  non_pk : List (String × Option V)
  valid_from : SqlTimestampExpr
  is_deleted : Bool
  is_full_load : Bool
deriving DecidableEq

/-- The `deletes` CTE of `do_deletes` (db_to_delta.py lines 548-565):
`latest_pk@old_pk_version EXCEPT latest_pk@current`, both projected to the
pk columns. -/
def delete_keys {K D : Type} [DecidableEq K]
    (last_pk latest_pk_cur : List (K × D)) : List K :=
  sql_except (last_pk.map Prod.fst) (latest_pk_cur.map Prod.fst)

/-- Modelled from the spec: the delete-key computation as the claim words it,
`latest_pk@prior_version EXCEPT primary_keys_ts` on the pk columns
(spec section 4.7); kept only to compare against `delete_keys`, whose right
operand in the code is the freshly rewritten `latest_pk` instead. -/
def delete_keys_claimed {K D : Type} [DecidableEq K]
    (last_pk primary_keys_ts : List (K × D)) : List K :=
  sql_except (last_pk.map Prod.fst) (primary_keys_ts.map Prod.fst)

/-- Rows produced by the `deletes_with_schema` query (db_to_delta.py lines
567-616): a schema-only arm restricted by `WHERE 1=0` (hence empty)
union-alled with one tombstone row per deleted key, carrying the pk values,
NULL in every non-pk column, `CURRENT_TIMESTAMP AT TIME ZONE 'UTC'` as
`__valid_from`, `__is_deleted = true` and `__is_full_load = false`. -/
def do_deletes_rows {K D V : Type} [DecidableEq K]
    (tgt : InformationSchemaColInfo → String)
    (cols pk_cols : List InformationSchemaColInfo)
    (last_pk latest_pk_cur : List (K × D)) : List (DeleteRow K V) :=
  let non_pk_cols := cols.filter (fun c => decide (c ∉ pk_cols))
  union_all
    [[],
     (delete_keys last_pk latest_pk_cur).map (fun k =>
       ⟨k, non_pk_cols.map (fun c => (tgt c, none)),
        SqlTimestampExpr.current_timestamp_at_utc, true, false⟩)]

/-- The `has_deletes` check of `do_deletes` (db_to_delta.py lines 618-627):
the result is appended to `delta/` only when its row count is positive. -/
def do_deletes_has_rows {K D V : Type} [DecidableEq K]
    (tgt : InformationSchemaColInfo → String)
    (cols pk_cols : List InformationSchemaColInfo)
    (last_pk latest_pk_cur : List (K × D)) : Bool :=
  (do_deletes_rows (V := V) tgt cols pk_cols last_pk latest_pk_cur).length > 0

/-- Destination sub-paths touched by the orchestrator (spec section 3,
destination layout). -/
inductive DPath
  | meta
  | schema_json
  | lock_file
  | delta_dir
  | delta_load_dir
  | latest_pk
  | delta_1
  | delta_2
  | primary_keys_ts
deriving DecidableEq

/-- Observable side effects of one orchestrator run.  Reads (view
registrations, SELECTs) and info-level log lines are not modelled; warnings
are, because the spec ties them to degradations. -/
inductive Ev
  | mkdir (p : DPath)
  | upload_str (p : DPath)
  | remove_file (p : DPath)
  | remove_table (p : DPath)
  | write_delta (p : DPath) (m : WMode)
  | vacuum (p : DPath)
  | log_warn
  | flush_log
deriving DecidableEq

/-- Environment of one run: configuration plus the oracle values the code
reads back from the destination (existence checks, row counts, the
watermark).  `restore_success` abstracts `restore_last_pk` from
`write_utils/restore_pk.py`, which is not among the sources; the spec only
says the routine either recovers the manifest or fails. -/
structure Env (K D : Type) where
  load_mode : LoadMode
  delta_col : Option InformationSchemaColInfo
  pk_cols : List InformationSchemaColInfo
  lock_exists : Bool
  lock_age : Nat
  delta_exists : Bool
  latest_pk_exists : Bool
  latest_pk_path_exists : Bool
  restore_success : Bool
  watermark : Option D
  delta_1_count : Nat
  au : AUInput K D
  has_deletes : Bool
  exists_for_vacuum : DPath → Bool

/-- Lock acquisition of `exec_write_db_to_delta` (db_to_delta.py lines
144-153): a lock file strictly older than one hour is removed, then an empty
lock file is uploaded unconditionally; there is no abort path. -/
def lock_acquire_events (lock_exists : Bool) (lock_age : Nat) : List Ev :=
  (if lock_exists = true ∧ lock_age > 60 * 60 then [Ev.remove_file DPath.lock_file]
   else [])
  ++ [Ev.upload_str DPath.lock_file]

/-- Side effects of `do_full_load` (db_to_delta.py lines 969-1032): write
`delta/` in the requested mode; when a delta column is configured, also
create `delta_load/` and overwrite the `latest_pk` manifest. -/
def do_full_load_events (delta_col : Option InformationSchemaColInfo)
    (m : WMode) : List Ev :=
  [Ev.write_delta DPath.delta_dir m]
  ++ (match delta_col with
      | none => []
      | some _ => [Ev.mkdir DPath.delta_load_dir,
                   Ev.write_delta DPath.latest_pk WMode.overwrite])

/-- Side effects of `do_append_inserts_load` (db_to_delta.py lines 467-505),
through `_load_updates_to_delta`: overwrite `delta_1`, and append it into
`delta/` when at least one row was loaded. -/
def append_inserts_events (delta_1_count : Nat) : List Ev :=
  [Ev.write_delta DPath.delta_1 WMode.overwrite]
  ++ (if delta_1_count > 0 then [Ev.write_delta DPath.delta_dir WMode.append] else [])

/-- Erasure of a strange-update event to a destination-level event. -/
def au_ev_to_ev {K D : Type} : AUEv K D → Ev
  | AUEv.write_delta_2 _ m => Ev.write_delta DPath.delta_2 m
  | AUEv.warn => Ev.log_warn
  | AUEv.replay_delta_1 _ => Ev.write_delta DPath.delta_1 WMode.overwrite
  | AUEv.append_delta_1_to_delta => Ev.write_delta DPath.delta_dir WMode.append
  | AUEv.append_delta_2_to_delta => Ev.write_delta DPath.delta_dir WMode.append

/-- Side effects of `do_delta_load` from the watermark probe on
(db_to_delta.py lines 382-464): a null watermark degrades to a full load in
append mode after a warning; otherwise the pipeline runs, and a simple load
ends by removing the `latest_pk` manifest when its path exists. -/
def delta_main_events {K D : Type} [DecidableEq K] [DecidableEq D] [LinearOrder D]
    (e : Env K D) (simple : Bool) : List Ev :=
  match e.watermark with
  | none => [Ev.log_warn] ++ do_full_load_events e.delta_col WMode.append
  | some _ =>
    (if simple = false then [Ev.write_delta DPath.primary_keys_ts WMode.overwrite]
     else [])
    ++ [Ev.write_delta DPath.delta_1 WMode.overwrite]
    ++ (if e.delta_1_count > 0 then [Ev.write_delta DPath.delta_dir WMode.append]
        else [])
    ++ (if simple = false then
          (handle_additional_updates e.pk_cols e.au).map au_ev_to_ev
          ++ [Ev.write_delta DPath.latest_pk WMode.overwrite]
          ++ (if e.has_deletes then [Ev.write_delta DPath.delta_dir WMode.append]
              else [])
        else
          (if e.latest_pk_path_exists then [Ev.remove_table DPath.latest_pk]
           else []))

/-- Side effects of `do_delta_load` (db_to_delta.py lines 340-464), including
the missing-manifest recovery branch: when the manifest is missing and cannot
be restored, the run warns and degrades to a full load in append mode. -/
def do_delta_load_events {K D : Type} [DecidableEq K] [DecidableEq D] [LinearOrder D]
    (e : Env K D) (simple : Bool) : List Ev :=
  if simple = false ∧ e.latest_pk_exists = false then
    [Ev.log_warn]
    ++ (if e.restore_success then delta_main_events e simple
        else [Ev.log_warn] ++ do_full_load_events e.delta_col WMode.append)
  else delta_main_events e simple

/-- The four `_vacuum` calls after a successful load (db_to_delta.py lines
185-190): `latest_pk`, `delta_1`, `delta_2` and `primary_keys_ts`, each
vacuumed only when the table exists. -/
def vacuum_events (f : DPath → Bool) : List Ev :=
  [DPath.latest_pk, DPath.delta_1, DPath.delta_2, DPath.primary_keys_ts].filterMap
    (fun p => if f p = true then some (Ev.vacuum p) else none)

/-- Side effects of the dispatched load (db_to_delta.py lines 155-183);
`none` is the assertion failure of the `append_inserts` branch. -/
def action_events {K D : Type} [DecidableEq K] [DecidableEq D] [LinearOrder D]
    (e : Env K D) : Option (List Ev) :=
  match dispatch e.delta_exists e.load_mode e.delta_col e.pk_cols with
  | LoadAction.full WMode.overwrite =>
    some ([Ev.mkdir DPath.delta_dir] ++ do_full_load_events e.delta_col WMode.overwrite)
  | LoadAction.full WMode.append =>
    some (do_full_load_events e.delta_col WMode.append)
  | LoadAction.append_inserts_load _ =>
    some (append_inserts_events e.delta_1_count)
  | LoadAction.delta_load simple =>
    some (do_delta_load_events e simple)
  | LoadAction.config_error => none

/-- Everything `exec_write_db_to_delta` does after acquiring the lock:
on success the lock is removed, the four `delta_load` tables are vacuumed and
the logger flushed; on the assertion failure the `finally` block removes the
still-present lock and flushes. -/
def post_lock_events {K D : Type} [DecidableEq K] [DecidableEq D] [LinearOrder D]
    (e : Env K D) : List Ev :=
  match action_events e with
  | none => [Ev.remove_file DPath.lock_file, Ev.flush_log]
  | some evs =>
    evs ++ [Ev.remove_file DPath.lock_file]
    ++ vacuum_events e.exists_for_vacuum ++ [Ev.flush_log]

/-- Result of one run: its event trace and whether it completed without
raising. -/
structure ExecResult where
  events : List Ev
  ok : Bool
deriving DecidableEq

/-- Trace semantics of `exec_write_db_to_delta` (db_to_delta.py lines
109-208): create `meta/`, upload `meta/schema.json`, acquire the lock,
perform the dispatched load, then clean up. -/
def exec_write_db_to_delta {K D : Type} [DecidableEq K] [DecidableEq D]
    [LinearOrder D] (e : Env K D) : ExecResult :=
  ⟨[Ev.mkdir DPath.meta, Ev.upload_str DPath.schema_json]
      ++ lock_acquire_events e.lock_exists e.lock_age
      ++ post_lock_events e,
    (action_events e).isSome⟩

/-- Copy of an environment with the lock oracle replaced, used to state that
the run's behaviour after lock acquisition does not depend on the lock. -/
def set_lock {K D : Type} (e : Env K D) (b : Bool) (n : Nat) : Env K D :=
  ⟨e.load_mode, e.delta_col, e.pk_cols, b, n, e.delta_exists, e.latest_pk_exists,
   e.latest_pk_path_exists, e.restore_success, e.watermark, e.delta_1_count,
   e.au, e.has_deletes, e.exists_for_vacuum⟩

/-- Events of the exception handler and the `finally` block of
`exec_write_db_to_delta` (db_to_delta.py lines 191-208). -/
inductive RecEv
  | restore_pk (v : Nat)
  | error_log
  | remove_lock
  | flush
deriving DecidableEq

/-- Inputs of the recovery wrapper: the `latest_pk` version recorded at entry
(db_to_delta.py lines 125-141, `none` when the table was missing or the
version read failed), whether the body raised, the version counter of
`latest_pk` when the body ended, and whether the lock file still exists when
the `finally` block runs. -/
structure RecoverInput where
  last_version_pk : Option Nat
  body_raises : Bool
  pk_version_after : Nat
  lock_exists_after_body : Bool
deriving DecidableEq

/-- Result of the recovery wrapper.  `latest_pk_version` is the version whose
content `latest_pk` holds at exit: a restore rewinds the content to the
recorded prior version. -/
structure RecoverResult where
  events : List RecEv
  latest_pk_version : Nat
  lock_exists : Bool
  raised : Bool
deriving DecidableEq

/-- The `try/except/finally` wrapper of `exec_write_db_to_delta`
(db_to_delta.py lines 144-208): on a failure with a recorded prior version
whose counter has since advanced, `latest_pk` is restored to the prior
version and the error logged before it propagates; the `finally` block
removes the lock when present and flushes the logger on every path. -/
def exec_recover (i : RecoverInput) : RecoverResult :=
  if i.body_raises then
    match i.last_version_pk with
    | some lv =>
      if i.pk_version_after > lv then
        ⟨[RecEv.restore_pk lv, RecEv.error_log]
          ++ (if i.lock_exists_after_body then [RecEv.remove_lock] else [])
          ++ [RecEv.flush], lv, false, true⟩
      else
        ⟨[RecEv.error_log]
          ++ (if i.lock_exists_after_body then [RecEv.remove_lock] else [])
          ++ [RecEv.flush], i.pk_version_after, false, true⟩
    | none =>
      ⟨[RecEv.error_log]
        ++ (if i.lock_exists_after_body then [RecEv.remove_lock] else [])
        ++ [RecEv.flush], i.pk_version_after, false, true⟩
  else
    ⟨(if i.lock_exists_after_body then [RecEv.remove_lock] else [])
      ++ [RecEv.flush], i.pk_version_after, false, false⟩

/-- Sample identity integer column, used to instantiate theorems. -/
def int_identity_col : InformationSchemaColInfo :=
  ⟨"user_id", "int", none, false, none, some 10, some 0, none,
   some GeneratedAlwaysType.not_applicable, true⟩

/-- Sample varchar column, used to instantiate theorems. -/
def varchar_col : InformationSchemaColInfo :=
  ⟨"name", "varchar", none, true, some 50, none, none, none,
   some GeneratedAlwaysType.not_applicable, false⟩

/-- Sample rowversion column, used to instantiate theorems. -/
def ts_col : InformationSchemaColInfo :=
  ⟨"time_stamp", "timestamp", none, false, none, none, none, none,
   some GeneratedAlwaysType.not_applicable, false⟩

/-- Identity target-name mapping (a trivial `get_target_name`). -/
def tgt0 (c : InformationSchemaColInfo) : String := c.column_name

/-- Trivial strange-update input for environments whose runs never reach the
strange-update step. -/
def au0 : AUInput Nat Nat := ⟨[], [], [], false, fun _ => 0, 0⟩

/-- Environment of a first run that finds a 30-minute-old lock: the
destination table is missing, so the dispatch picks a full overwrite load. -/
def env_lock_young : Env Nat Nat :=
  ⟨LoadMode.auto, none, [], true, 1800, false, false, false, false, none, 0,
   au0, false, fun _ => false⟩

/-- Environment of a successful simple delta load over an existing
destination whose `latest_pk` manifest exists. -/
def env_simple : Env Nat Nat :=
  ⟨LoadMode.simple_delta, some ts_col, [int_identity_col], false, 0, true,
   true, true, false, some 1, 0, au0, false, fun _ => false⟩

/-- Environment of a delta load that reads a NULL watermark from an existing
destination. -/
def env_wm_none : Env Nat Nat :=
  ⟨LoadMode.auto, some ts_col, [int_identity_col], false, 0, true, true, true,
   false, none, 0, au0, false, fun _ => false⟩

/-- Sixteen varchar primary-key columns: the per-tuple estimate is
16 * (5 + 40) = 720 bytes, hence a batch size of max(10, 7000 / 720) = 10. -/
def c6_pk_cols : List InformationSchemaColInfo := List.replicate 16 varchar_col

/-- Strange-update input with eleven fresh primary keys (two chunks of the
minimal batch size 10) whose rendered SQL is always 8000 characters long. -/
def c6_au : AUInput Nat Nat :=
  ⟨(List.range 11).map (fun k => (k, 0)), [], [], false, fun _ => 8000, 0⟩

/-- Membership in an SQL EXCEPT. -/
theorem mem_sql_except {A : Type} [DecidableEq A] (l r : List A) (a : A) :
    a ∈ sql_except l r ↔ a ∈ l ∧ a ∉ r := by
  simp [sql_except, List.mem_dedup, List.mem_filter]

/-- Membership in an anti join on the pk columns. -/
theorem mem_anti_join {K D E : Type} [DecidableEq K]
    (l : List (K × D)) (r : List (K × E)) (x : K × D) :
    x ∈ anti_join l r pk_eq ↔ x ∈ l ∧ x.1 ∉ r.map Prod.fst := by
  simp only [anti_join, List.mem_filter, Bool.not_eq_true', List.any_eq_false, pk_eq,
    List.mem_map, not_exists]
  constructor
  · rintro ⟨h1, h2⟩
    refine ⟨h1, fun y hy => ?_⟩
    have h3 := h2 y hy.1
    simp only [decide_eq_true_eq] at h3
    exact h3 hy.2.symm
  · rintro ⟨h1, h2⟩
    refine ⟨h1, fun y hy => ?_⟩
    simp only [decide_eq_true_eq]
    exact fun he => h2 y ⟨hy, he.symm⟩

/-- Invariant of the chunking loop: starting from a partial chunk shorter
than `n`, the produced chunks concatenate to the partial chunk followed by
the remaining input, every chunk is non-empty and at most `n` long, and
every chunk but the last is exactly `n` long. -/
theorem ltc_go_spec {T : Type} (n : Nat) (hn : 1 ≤ n) :
    ∀ (xs chunk : List T), chunk.length < n →
      (ltc_go n xs chunk).flatten = chunk ++ xs
      ∧ (∀ c ∈ ltc_go n xs chunk, c ≠ [] ∧ c.length ≤ n)
      ∧ (∀ c ∈ (ltc_go n xs chunk).dropLast, c.length = n) := by
  intro xs
  induction xs with
  | nil =>
    intro chunk hc
    by_cases h : chunk.length > 0
    · rw [ltc_go, if_pos h]
      refine ⟨by simp, ?_, by simp⟩
      intro c hcm
      rcases List.mem_singleton.mp hcm with rfl
      exact ⟨List.length_pos.mp h, Nat.le_of_lt hc⟩
    · have hnil : chunk = [] := List.length_eq_zero.mp (Nat.eq_zero_of_not_pos h)
      rw [ltc_go, if_neg h]
      simp [hnil]
  | cons x xs ih =>
    intro chunk hc
    rw [ltc_go]
    by_cases h : (chunk ++ [x]).length ≥ n
    · have hlen : (chunk ++ [x]).length = n := by
        simp only [List.length_append, List.length_singleton] at h ⊢
        omega
      have h0 : (([] : List T)).length < n := by simpa using hn
      obtain ⟨ihj, ihm, ihd⟩ := ih [] h0
      rw [if_pos h]
      refine ⟨?_, ?_, ?_⟩
      · simp [ihj]
      · intro c hcm
        rcases List.mem_cons.mp hcm with rfl | hcm
        · exact ⟨by simp, Nat.le_of_eq hlen⟩
        · exact ihm c hcm
      · intro c hcm
        cases hrest : ltc_go n xs ([] : List T) with
        | nil => rw [hrest] at hcm; simp at hcm
        | cons r rs =>
          rw [hrest, List.dropLast_cons₂] at hcm
          rcases List.mem_cons.mp hcm with rfl | hcm
          · exact hlen
          · exact ihd c (by rw [hrest]; exact hcm)
    · have hlt : (chunk ++ [x]).length < n := Nat.lt_of_not_le h
      obtain ⟨ihj, ihm, ihd⟩ := ih (chunk ++ [x]) hlt
      rw [if_neg h]
      refine ⟨?_, ihm, ihd⟩
      rw [ihj]
      simp

/-- Chunking round-trip (claim C10): for every input list and chunk size of
at least one, the chunks produced by `_list_to_chunks` concatenate back to
the input in order, every chunk is non-empty and at most `chunk_size` long,
and every chunk except possibly the last is exactly `chunk_size` long. -/
theorem c10_chunking_round_trip {T : Type} (l : List T) (n : Nat) (hn : 1 ≤ n) :
    (list_to_chunks l n).flatten = l
    ∧ (∀ c ∈ list_to_chunks l n, c ≠ [] ∧ c.length ≤ n)
    ∧ (∀ c ∈ (list_to_chunks l n).dropLast, c.length = n) := by
  have h0 : (([] : List T)).length < n := by simpa using hn
  have h := ltc_go_spec n hn l [] h0
  simpa [list_to_chunks] using h

/-- Witness for C10 at the input `[1, 2, 3]` with chunk size 2. -/
theorem c10_witness :
    (list_to_chunks [1, 2, 3] 2).flatten = [1, 2, 3]
    ∧ (∀ c ∈ list_to_chunks [1, 2, 3] 2, c ≠ [] ∧ c.length ≤ 2)
    ∧ (∀ c ∈ (list_to_chunks [1, 2, 3] 2).dropLast, c.length = 2) :=
  c10_chunking_round_trip [1, 2, 3] 2 (by decide)

/-- PK manifest composition (claim C8): `latest_pk` is the non-distinct
UNION ALL of `delta_2`, of `delta_1` anti-joined against `delta_2` on the pk
columns, and of `primary_keys_ts` anti-joined against `delta_2` and against
`delta_1` on the pk columns, each projected to `(pk..., delta_col)`; a row
is in the result exactly when one of the three operands admits it, and the
three operands are pairwise disjoint on the pk columns. -/
theorem c8_latest_pk_composition {K D : Type} [DecidableEq K]
    (d2 d1 pkts : List (K × D)) :
    write_latest_pk d2 d1 pkts
      = d2 ++ anti_join d1 d2 pk_eq ++ anti_join (anti_join pkts d2 pk_eq) d1 pk_eq
    ∧ (∀ x : K × D, x ∈ write_latest_pk d2 d1 pkts ↔
        x ∈ d2 ∨ (x ∈ d1 ∧ x.1 ∉ d2.map Prod.fst)
        ∨ (x ∈ pkts ∧ x.1 ∉ d2.map Prod.fst ∧ x.1 ∉ d1.map Prod.fst))
    ∧ (∀ x ∈ d2, ∀ y ∈ anti_join d1 d2 pk_eq, x.1 ≠ y.1)
    ∧ (∀ x ∈ d2, ∀ y ∈ anti_join (anti_join pkts d2 pk_eq) d1 pk_eq, x.1 ≠ y.1)
    ∧ (∀ x ∈ anti_join d1 d2 pk_eq, ∀ y ∈ anti_join (anti_join pkts d2 pk_eq) d1 pk_eq,
        x.1 ≠ y.1) := by
  refine ⟨?_, ?_, ?_, ?_, ?_⟩
  · simp [write_latest_pk, union_all]
  · intro x
    simp only [write_latest_pk, union_all, List.flatten_cons, List.flatten_nil,
      List.append_nil, List.mem_append, mem_anti_join]
    tauto
  · intro x hx y hy heq
    obtain ⟨-, hy2⟩ := (mem_anti_join d1 d2 y).mp hy
    exact hy2 (heq ▸ List.mem_map_of_mem Prod.fst hx)
  · intro x hx y hy heq
    obtain ⟨hy1, -⟩ := (mem_anti_join (anti_join pkts d2 pk_eq) d1 y).mp hy
    obtain ⟨-, hy2⟩ := (mem_anti_join pkts d2 y).mp hy1
    exact hy2 (heq ▸ List.mem_map_of_mem Prod.fst hx)
  · intro x hx y hy heq
    obtain ⟨hx1, -⟩ := (mem_anti_join d1 d2 x).mp hx
    obtain ⟨-, hy2⟩ := (mem_anti_join (anti_join pkts d2 pk_eq) d1 y).mp hy
    exact hy2 (heq ▸ List.mem_map_of_mem Prod.fst hx1)

/-- Witness for C8: the row `(2, 30)` of `delta_1` survives the anti join
against `delta_2 = [(1, 10)]` and is in the composed manifest. -/
theorem c8_witness :
    (2, 30) ∈ write_latest_pk (K := Nat) (D := Nat) [(1, 10)] [(1, 20), (2, 30)]
      [(2, 5), (3, 7)] :=
  ((c8_latest_pk_composition [(1, 10)] [(1, 20), (2, 30)] [(2, 5), (3, 7)]).2.1
      (2, 30)).mpr (Or.inr (Or.inl ⟨by decide, by decide⟩))

/-- Delete detection as the code performs it (claim C7, amended): the set of
deleted keys is `latest_pk@prior EXCEPT` the freshly rewritten current
`latest_pk` on the pk columns; each tombstone row carries the pk values,
NULL in every non-pk column, `CURRENT_TIMESTAMP AT TIME ZONE 'UTC'` as
`__valid_from`, `__is_deleted = true`, `__is_full_load = false`; the result
is appended only when its row count is positive. -/
theorem c7_delete_detection_amended {K D V : Type} [DecidableEq K]
    (tgt : InformationSchemaColInfo → String)
    (cols pk_cols : List InformationSchemaColInfo)
    (last_pk latest_pk_cur : List (K × D)) :
    (∀ k, k ∈ delete_keys last_pk latest_pk_cur ↔
      k ∈ last_pk.map Prod.fst ∧ k ∉ latest_pk_cur.map Prod.fst)
    ∧ do_deletes_rows (V := V) tgt cols pk_cols last_pk latest_pk_cur =
        (delete_keys last_pk latest_pk_cur).map (fun k =>
          ⟨k, (cols.filter (fun c => decide (c ∉ pk_cols))).map (fun c => (tgt c, none)),
           SqlTimestampExpr.current_timestamp_at_utc, true, false⟩)
    ∧ (do_deletes_has_rows (V := V) tgt cols pk_cols last_pk latest_pk_cur = true ↔
        delete_keys last_pk latest_pk_cur ≠ []) := by
  refine ⟨fun k => mem_sql_except _ _ k, ?_, ?_⟩
  · simp [do_deletes_rows, union_all]
  · simp [do_deletes_has_rows, do_deletes_rows, union_all, List.length_pos]

/-- Counterexample for C7 as stated: with prior manifest `[(1, 10)]`, an
empty `primary_keys_ts`, `delta_1 = [(1, 20)]` and an empty `delta_2`, the
fresh manifest is `[(1, 20)]`, so the code derives no deleted key, while
`latest_pk@prior EXCEPT primary_keys_ts` would tombstone key 1. -/
theorem c7_counterexample :
    delete_keys (K := Nat) (D := Nat) [(1, 10)] (write_latest_pk [] [(1, 20)] []) = []
    ∧ delete_keys_claimed (K := Nat) (D := Nat) [(1, 10)] [] = [1]
    ∧ do_deletes_rows (V := Nat) tgt0 [int_identity_col, varchar_col] [int_identity_col]
        [(1, 10)] (write_latest_pk [] [(1, 20)] []) = []
    ∧ delete_keys (K := Nat) (D := Nat) [(1, 10)] (write_latest_pk [] [(1, 20)] [])
        ≠ delete_keys_claimed [(1, 10)] ([] : List (Nat × Nat)) := by
  refine ⟨by decide, by decide, ?_, by decide⟩
  simp [do_deletes_rows, union_all]
  decide

/-- Witness for C7: key 1 is deleted when the prior manifest holds it and
the fresh manifest is empty. -/
theorem c7_witness :
    1 ∈ delete_keys (K := Nat) (D := Nat) [(1, 10)] [] :=
  ((c7_delete_detection_amended (V := Nat) tgt0 [] [] [(1, 10)] []).1 1).mpr (by decide)

/-- With the first-chunk flag cleared, every statement the emission loop
produces is in append mode, the halves of an oversized chunk included. -/
theorem emit_chunks_false {K : Type} (f : List K → Nat) (chunks : List (List K)) :
    emit_chunks f chunks false =
      (chunks.map (fun d =>
        if f d > 7000 then
          [(d.take (d.length / 2), WMode.append), (d.drop (d.length / 2), WMode.append)]
        else [(d, WMode.append)])).flatten := by
  induction chunks with
  | nil => rfl
  | cons c rest ih => by_cases h : f c > 7000 <;> simp [emit_chunks, ih, h]

/-- Chunked OPENJSON emission (claim C6, amended): the batch size is
`max(10, 7000 / per_tuple_bytes)` with `per_tuple_bytes` summing
`5 + (10 for integer-like pk types, 40 otherwise)` over a non-empty pk
column list; an oversized chunk is split in half (the halves reassemble the
chunk) and emitted as two statements whose first is in overwrite mode only
when the chunk is the first chunk overall and in append mode otherwise,
the second always appending; every statement of every later chunk appends;
afterwards `delta_2` is appended into `delta/`. -/
theorem c6_chunked_emission_amended {K D : Type} [DecidableEq K] [DecidableEq D]
    [LinearOrder D] (pk_cols : List InformationSchemaColInfo) (i : AUInput K D)
    (f : List K → Nat) (c : List K) (rest : List (List K))
    (h : pk_cols ≠ []) :
    emit_chunks f (c :: rest) true =
      (if f c > 7000 then
        [(c.take (c.length / 2), WMode.overwrite), (c.drop (c.length / 2), WMode.append)]
      else [(c, WMode.overwrite)])
      ++ (rest.map (fun d =>
        if f d > 7000 then
          [(d.take (d.length / 2), WMode.append), (d.drop (d.length / 2), WMode.append)]
        else [(d, WMode.append)])).flatten
    ∧ (∀ d : List K, d.take (d.length / 2) ++ d.drop (d.length / 2) = d)
    ∧ 0 < char_size_pks pk_cols
    ∧ batch_size pk_cols = max 10 (7000 / char_size_pks pk_cols)
    ∧ (chunked_au_events pk_cols i).getLast? = some AUEv.append_delta_2_to_delta := by
  refine ⟨?_, ?_, ?_, rfl, ?_⟩
  · by_cases hc : f c > 7000 <;> simp [emit_chunks, emit_chunks_false, hc]
  · intro d
    exact List.take_append_drop _ d
  · cases pk_cols with
    | nil => exact absurd rfl h
    | cons p ps =>
      simp only [char_size_pks, List.map_cons, List.sum_cons]
      omega
  · unfold chunked_au_events
    exact List.getLast?_concat _

/-- Counterexample for C6 as stated: with sixteen varchar pk columns the
batch size is 10, eleven fresh keys make two chunks, and every rendered SQL
is 8000 characters long; the second chunk `[10]` is oversized, yet the first
statement of its split (the empty first half) is emitted in append mode, not
overwrite mode. -/
theorem c6_counterexample :
    handle_additional_updates c6_pk_cols c6_au =
      [AUEv.write_delta_2 (AUStmt.chunk [0, 1, 2, 3, 4]) WMode.overwrite,
       AUEv.write_delta_2 (AUStmt.chunk [5, 6, 7, 8, 9]) WMode.append,
       AUEv.write_delta_2 (AUStmt.chunk []) WMode.append,
       AUEv.write_delta_2 (AUStmt.chunk [10]) WMode.append,
       AUEv.append_delta_2_to_delta]
    ∧ c6_au.sql_len [10] > 7000
    ∧ AUEv.write_delta_2 (AUStmt.chunk ([] : List Nat)) WMode.overwrite
        ∉ handle_additional_updates c6_pk_cols c6_au := by
  refine ⟨by decide, by decide, by decide⟩

/-- Witness for C6 at the sixteen-varchar-column input. -/
theorem c6_witness :
    0 < char_size_pks c6_pk_cols
    ∧ batch_size c6_pk_cols = max 10 (7000 / char_size_pks c6_pk_cols)
    ∧ (chunked_au_events c6_pk_cols c6_au).getLast? =
        some AUEv.append_delta_2_to_delta := by
  have h := c6_chunked_emission_amended c6_pk_cols c6_au (fun _ => 8000) [] []
    (by decide)
  exact ⟨h.2.2.1, h.2.2.2.1, h.2.2.2.2⟩

/-- Strange-update branch selection (claim C5): with `n` the count of
`real_additional_updates`, `n = 0` writes an empty `delta_2` in overwrite
mode and finishes; `n > 1000` or `no_complex_entries_load` writes an empty
`delta_2`, then replays the timestamp-update step with the minimum
`delta_col` value over `additional_updates` as secondary watermark
(appending `delta_1` into `delta/` when it loaded rows); otherwise the
chunked OPENJSON path runs. -/
theorem c5_strange_update_branches {K D : Type} [DecidableEq K] [DecidableEq D]
    [LinearOrder D] (pk_cols : List InformationSchemaColInfo) (i : AUInput K D) :
    ((real_additional_updates i).length = 0 →
      handle_additional_updates pk_cols i =
        [AUEv.write_delta_2 AUStmt.empty_json WMode.overwrite])
    ∧ ((real_additional_updates i).length ≠ 0 →
       ((real_additional_updates i).length > 1000 ∨ i.no_complex_entries_load = true) →
      handle_additional_updates pk_cols i =
        [AUEv.write_delta_2 AUStmt.empty_json WMode.overwrite, AUEv.warn,
         AUEv.replay_delta_1 (((additional_updates i).map Prod.snd).min?)]
        ++ (if i.replay_count > 0 then [AUEv.append_delta_1_to_delta] else []))
    ∧ ((real_additional_updates i).length ≠ 0 →
       (real_additional_updates i).length ≤ 1000 →
       i.no_complex_entries_load = false →
      handle_additional_updates pk_cols i = chunked_au_events pk_cols i) := by
  refine ⟨?_, ?_, ?_⟩
  · intro h
    simp [handle_additional_updates, h]
  · intro h0 h1
    simp [handle_additional_updates, h0, h1, replay_au_events]
  · intro h0 h2 h3
    have h4 : ¬(1000 < (real_additional_updates i).length) := Nat.not_lt.mpr h2
    simp [handle_additional_updates, h0, h3, h4]

/-- Witness for C5: with no strange updates at all the step only writes the
empty `delta_2`. -/
theorem c5_witness :
    handle_additional_updates ([] : List InformationSchemaColInfo) au0 =
      [AUEv.write_delta_2 AUStmt.empty_json WMode.overwrite] :=
  (c5_strange_update_branches [] au0).1 (by decide)

/-- Load-mode dispatch (claim C1): a missing destination table or the
`overwrite` mode force a full overwrite load; `append_inserts` performs an
append-inserts load with the configured delta column, auto-picked when the
single primary-key column is an identity column and otherwise failing; a
missing delta column, an empty primary key set or `force_full` give a full
load in append mode; any other case is a delta load, simple exactly for
`simple_delta`. -/
theorem c1_load_mode_dispatch (de : Bool) (lm : LoadMode)
    (dc : Option InformationSchemaColInfo) (pks : List InformationSchemaColInfo) :
    ((de = false ∨ lm = LoadMode.overwrite) →
      dispatch de lm dc pks = LoadAction.full WMode.overwrite)
    ∧ (de = true → lm = LoadMode.append_inserts →
      dispatch de lm dc pks =
        (match append_inserts_delta_col dc pks with
         | some c => LoadAction.append_inserts_load c
         | none => LoadAction.config_error))
    ∧ (∀ p, pks = [p] → p.is_identity = true →
      append_inserts_delta_col none pks = some p)
    ∧ (de = true → lm ≠ LoadMode.overwrite → lm ≠ LoadMode.append_inserts →
       (dc = none ∨ pks = [] ∨ lm = LoadMode.force_full) →
      dispatch de lm dc pks = LoadAction.full WMode.append)
    ∧ (de = true → lm ≠ LoadMode.overwrite → lm ≠ LoadMode.append_inserts →
       dc ≠ none → pks ≠ [] → lm ≠ LoadMode.force_full →
      dispatch de lm dc pks =
        LoadAction.delta_load (decide (lm = LoadMode.simple_delta))) := by
  refine ⟨?_, ?_, ?_, ?_, ?_⟩
  · intro h
    unfold dispatch
    rw [if_pos h]
  · intro h1 h2
    subst h1
    subst h2
    simp [dispatch]
  · intro p hp hid
    subst hp
    simp [append_inserts_delta_col, hid]
  · intro h1 h2 h3 h4
    subst h1
    unfold dispatch
    rw [if_neg (by simp [h2]), if_neg h3, if_pos (by simpa [List.length_eq_zero] using h4)]
  · intro h1 h2 h3 h4 h5 h6
    subst h1
    unfold dispatch
    rw [if_neg (by simp [h2]), if_neg h3,
      if_neg (by simp [h4, h5, h6, List.length_eq_zero])]

/-- Witness for C1: `force_full` over an existing destination with a delta
column and a primary key yields a full load in append mode. -/
theorem c1_witness :
    dispatch true LoadMode.force_full (some ts_col) [int_identity_col] =
      LoadAction.full WMode.append :=
  (c1_load_mode_dispatch true LoadMode.force_full (some ts_col)
      [int_identity_col]).2.2.2.1 rfl (by decide) (by decide) (Or.inr (Or.inr rfl))

/-- Counterexample for C2 as stated: a run that finds a 30-minute-old lock
does not abort; it uploads the schema, overwrites the lock and performs the
full overwrite load.  Moreover a lock aged exactly one hour is not removed
(only strictly older locks are). -/
theorem c2_counterexample :
    (exec_write_db_to_delta env_lock_young).ok = true
    ∧ Ev.upload_str DPath.schema_json ∈ (exec_write_db_to_delta env_lock_young).events
    ∧ Ev.write_delta DPath.delta_dir WMode.overwrite
        ∈ (exec_write_db_to_delta env_lock_young).events
    ∧ Ev.remove_file DPath.lock_file ∉ lock_acquire_events true 3600 := by
  decide

/-- Lock handling (claim C2, amended): a lock file is removed at entry
exactly when it exists and is strictly older than one hour; the new lock is
always uploaded; and the outcome and the whole post-lock behaviour of the
run do not depend on the lock oracle at all — no abort exists. -/
theorem c2_lock_handling_amended {K D : Type} [DecidableEq K] [DecidableEq D]
    [LinearOrder D] (e : Env K D) (b : Bool) (n : Nat) :
    (Ev.remove_file DPath.lock_file ∈ lock_acquire_events e.lock_exists e.lock_age ↔
      e.lock_exists = true ∧ e.lock_age > 60 * 60)
    ∧ Ev.upload_str DPath.lock_file ∈ lock_acquire_events e.lock_exists e.lock_age
    ∧ (exec_write_db_to_delta e).events =
        [Ev.mkdir DPath.meta, Ev.upload_str DPath.schema_json]
        ++ lock_acquire_events e.lock_exists e.lock_age ++ post_lock_events e
    ∧ post_lock_events (set_lock e b n) = post_lock_events e
    ∧ (exec_write_db_to_delta (set_lock e b n)).ok = (exec_write_db_to_delta e).ok := by
  refine ⟨?_, ?_, rfl, rfl, rfl⟩
  · unfold lock_acquire_events
    split_ifs with h
    · exact iff_of_true (by simp) h
    · exact iff_of_false (by simp) h
  · unfold lock_acquire_events
    split_ifs <;> simp

/-- Witness for C2: the run over the stale-lock-free environment performs
the same post-lock work even when a fresh 30-minute-old lock is injected. -/
theorem c2_witness :
    post_lock_events (set_lock env_lock_young false 0) = post_lock_events env_lock_young
    ∧ (exec_write_db_to_delta (set_lock env_lock_young false 0)).ok =
        (exec_write_db_to_delta env_lock_young).ok :=
  ⟨(c2_lock_handling_amended env_lock_young false 0).2.2.2.1,
   (c2_lock_handling_amended env_lock_young false 0).2.2.2.2⟩

/-- Rollback on failure (claim C3): when the body raises after the
`latest_pk` counter advanced past a recorded prior version, `latest_pk` is
restored to that prior version first and the error propagates; on every exit
path the lock file is gone and the logger flushed last. -/
theorem c3_rollback_and_cleanup (i : RecoverInput) (lv : Nat) :
    (i.body_raises = true → i.last_version_pk = some lv → i.pk_version_after > lv →
      (exec_recover i).latest_pk_version = lv
      ∧ (exec_recover i).raised = true
      ∧ (exec_recover i).events.head? = some (RecEv.restore_pk lv))
    ∧ (exec_recover i).lock_exists = false
    ∧ (exec_recover i).events.getLast? = some RecEv.flush := by
  refine ⟨?_, ?_, ?_⟩
  · intro h1 h2 h3
    simp [exec_recover, h1, h2, h3]
  · cases hb : i.body_raises <;> cases hl : i.last_version_pk <;>
      simp [exec_recover, hb, hl] <;> split_ifs <;> rfl
  · cases hb : i.body_raises <;> cases hl : i.last_version_pk <;>
      cases hk : i.lock_exists_after_body <;>
      simp [exec_recover, hb, hl, hk] <;> split_ifs <;> rfl

/-- Witness for C3: a raise with recorded prior version 3 and counter 5
restores to version 3 before the error propagates. -/
theorem c3_witness :
    (exec_recover ⟨some 3, true, 5, false⟩).latest_pk_version = 3
    ∧ (exec_recover ⟨some 3, true, 5, false⟩).raised = true
    ∧ (exec_recover ⟨some 3, true, 5, false⟩).events.head? =
        some (RecEv.restore_pk 3) :=
  (c3_rollback_and_cleanup ⟨some 3, true, 5, false⟩ 3).1 rfl rfl (by decide)

/-- Null-watermark degradation (claim C4): when the maximum of the delta
column over the existing destination table is NULL, the delta load logs a
warning and performs a full load in append mode, and nothing else. -/
theorem c4_null_watermark {K D : Type} [DecidableEq K] [DecidableEq D]
    [LinearOrder D] (e : Env K D) (simple : Bool) (hw : e.watermark = none)
    (hres : simple = false → e.latest_pk_exists = false → e.restore_success = true) :
    do_delta_load_events e simple =
      (if simple = false ∧ e.latest_pk_exists = false then [Ev.log_warn] else [])
      ++ [Ev.log_warn] ++ do_full_load_events e.delta_col WMode.append := by
  by_cases h : simple = false ∧ e.latest_pk_exists = false
  · have hr := hres h.1 h.2
    simp [do_delta_load_events, h, hr, delta_main_events, hw]
  · simp [do_delta_load_events, h, delta_main_events, hw]

/-- Witness for C4 over a concrete environment with a NULL watermark. -/
theorem c4_witness :
    do_delta_load_events env_wm_none false =
      [Ev.log_warn] ++ do_full_load_events (some ts_col) WMode.append := by
  have h := c4_null_watermark env_wm_none false rfl (fun _ hh => absurd hh (by decide))
  simpa using h

/-- A full load never removes nor vacuums any table. -/
theorem full_load_no_remove (p : DPath) (dc : Option InformationSchemaColInfo)
    (m : WMode) :
    Ev.remove_table p ∉ do_full_load_events dc m
    ∧ Ev.vacuum p ∉ do_full_load_events dc m := by
  cases dc <;> simp [do_full_load_events]

/-- An append-inserts load never removes nor vacuums any table. -/
theorem append_inserts_no_remove (p : DPath) (n : Nat) :
    Ev.remove_table p ∉ append_inserts_events n
    ∧ Ev.vacuum p ∉ append_inserts_events n := by
  by_cases h : n > 0 <;> simp [append_inserts_events, h]

/-- The strange-update step only writes and warns. -/
theorem au_ev_no_remove {K D : Type} (a : AUEv K D) (p : DPath) :
    au_ev_to_ev a ≠ Ev.remove_table p ∧ au_ev_to_ev a ≠ Ev.vacuum p := by
  cases a <;> simp [au_ev_to_ev]

/-- Lock acquisition only removes the lock file and uploads. -/
theorem lock_acquire_no_remove (le : Bool) (la : Nat) (p : DPath) :
    Ev.remove_table p ∉ lock_acquire_events le la
    ∧ Ev.vacuum p ∉ lock_acquire_events le la := by
  by_cases h : le = true ∧ la > 60 * 60 <;> simp [lock_acquire_events, h]


/-- No strange-update event erases to a table removal. -/
theorem au_ev_ne_remove {K D : Type} (a : AUEv K D) (p : DPath) :
    au_ev_to_ev a ≠ Ev.remove_table p := by
  cases a <;> simp [au_ev_to_ev]

/-- No strange-update event erases to a vacuum. -/
theorem au_ev_ne_vacuum {K D : Type} (a : AUEv K D) (p : DPath) :
    au_ev_to_ev a ≠ Ev.vacuum p := by
  cases a <;> simp [au_ev_to_ev]

/-- Membership in a conditional singleton list. -/
theorem mem_ite_singleton {A : Type} (c : Prop) [Decidable c] (x y : A) :
    (y ∈ (if c then [x] else [])) ↔ (c ∧ y = x) := by
  split_ifs with hc <;> simp [hc]

/-- The non-simple delta pipeline after a non-null watermark, spelled out. -/
theorem delta_main_events_false {K D : Type} [DecidableEq K] [DecidableEq D]
    [LinearOrder D] (e : Env K D) (w : D) (hw : e.watermark = some w) :
    delta_main_events e false =
      [Ev.write_delta DPath.primary_keys_ts WMode.overwrite,
       Ev.write_delta DPath.delta_1 WMode.overwrite]
      ++ (if e.delta_1_count > 0 then [Ev.write_delta DPath.delta_dir WMode.append]
          else [])
      ++ (handle_additional_updates e.pk_cols e.au).map au_ev_to_ev
      ++ [Ev.write_delta DPath.latest_pk WMode.overwrite]
      ++ (if e.has_deletes then [Ev.write_delta DPath.delta_dir WMode.append]
          else []) := by
  simp [delta_main_events, hw]

/-- The simple delta pipeline after a non-null watermark, spelled out. -/
theorem delta_main_events_true {K D : Type} [DecidableEq K] [DecidableEq D]
    [LinearOrder D] (e : Env K D) (w : D) (hw : e.watermark = some w) :
    delta_main_events e true =
      [Ev.write_delta DPath.delta_1 WMode.overwrite]
      ++ (if e.delta_1_count > 0 then [Ev.write_delta DPath.delta_dir WMode.append]
          else [])
      ++ (if e.latest_pk_path_exists then [Ev.remove_table DPath.latest_pk]
          else []) := by
  simp [delta_main_events, hw]

/-- A table removal inside the delta pipeline can only be the simple-mode
removal of the `latest_pk` manifest, guarded by its path existing. -/
theorem remove_table_in_delta_main {K D : Type} [DecidableEq K] [DecidableEq D]
    [LinearOrder D] (e : Env K D) (simple : Bool) (p : DPath)
    (hp : Ev.remove_table p ∈ delta_main_events e simple) :
    p = DPath.latest_pk ∧ simple = true ∧ e.latest_pk_path_exists = true := by
  cases hw : e.watermark with
  | none =>
    unfold delta_main_events at hp
    rw [hw] at hp
    simp only [List.mem_append, List.mem_singleton] at hp
    rcases hp with h | h
    · cases h
    · exact absurd h (full_load_no_remove p e.delta_col WMode.append).1
  | some w =>
    cases simple with
    | false =>
      rw [delta_main_events_false e w hw] at hp
      simp [mem_ite_singleton, au_ev_ne_remove] at hp
    | true =>
      rw [delta_main_events_true e w hw] at hp
      simp [mem_ite_singleton] at hp
      exact ⟨hp.2, rfl, hp.1⟩

/-- No vacuum happens inside the delta pipeline itself. -/
theorem vacuum_not_in_delta_main {K D : Type} [DecidableEq K] [DecidableEq D]
    [LinearOrder D] (e : Env K D) (simple : Bool) (p : DPath) :
    Ev.vacuum p ∉ delta_main_events e simple := by
  intro hp
  cases hw : e.watermark with
  | none =>
    unfold delta_main_events at hp
    rw [hw] at hp
    simp only [List.mem_append, List.mem_singleton] at hp
    rcases hp with h | h
    · cases h
    · exact absurd h (full_load_no_remove p e.delta_col WMode.append).2
  | some w =>
    cases simple with
    | false =>
      rw [delta_main_events_false e w hw] at hp
      simp [mem_ite_singleton, au_ev_ne_vacuum] at hp
    | true =>
      rw [delta_main_events_true e w hw] at hp
      simp [mem_ite_singleton] at hp

/-- As `remove_table_in_delta_main`, but through the missing-manifest
recovery branch of `do_delta_load`. -/
theorem remove_table_in_delta_load {K D : Type} [DecidableEq K] [DecidableEq D]
    [LinearOrder D] (e : Env K D) (simple : Bool) (p : DPath)
    (hp : Ev.remove_table p ∈ do_delta_load_events e simple) :
    p = DPath.latest_pk ∧ simple = true ∧ e.latest_pk_path_exists = true := by
  unfold do_delta_load_events at hp
  split_ifs at hp with h1 h2
  · simp only [List.mem_append, List.mem_singleton] at hp
    rcases hp with h | h
    · cases h
    · exact remove_table_in_delta_main e simple p h
  · simp only [List.mem_append, List.mem_singleton] at hp
    rcases hp with h | h | h
    · cases h
    · cases h
    · exact absurd h (full_load_no_remove p e.delta_col WMode.append).1
  · exact remove_table_in_delta_main e simple p hp

/-- No vacuum happens inside `do_delta_load`. -/
theorem vacuum_not_in_delta_load {K D : Type} [DecidableEq K] [DecidableEq D]
    [LinearOrder D] (e : Env K D) (simple : Bool) (p : DPath) :
    Ev.vacuum p ∉ do_delta_load_events e simple := by
  intro hp
  unfold do_delta_load_events at hp
  split_ifs at hp with h1 h2
  · simp only [List.mem_append, List.mem_singleton] at hp
    rcases hp with h | h
    · cases h
    · exact vacuum_not_in_delta_main e simple p h
  · simp only [List.mem_append, List.mem_singleton] at hp
    rcases hp with h | h | h
    · cases h
    · cases h
    · exact absurd h (full_load_no_remove p e.delta_col WMode.append).2
  · exact vacuum_not_in_delta_main e simple p hp

/-- The post-run vacuums only touch the four `delta_load` tables. -/
theorem mem_vacuum_events (f : DPath → Bool) (p : DPath)
    (h : Ev.vacuum p ∈ vacuum_events f) :
    p = DPath.latest_pk ∨ p = DPath.delta_1 ∨ p = DPath.delta_2
    ∨ p = DPath.primary_keys_ts := by
  simp only [vacuum_events, List.mem_filterMap] at h
  obtain ⟨q, hq, he⟩ := h
  by_cases hf : f q = true
  · rw [if_pos hf] at he
    obtain rfl : q = p := by simpa using he
    simpa using hq
  · rw [if_neg hf] at he
    cases he

/-- The post-run vacuums never remove a table. -/
theorem remove_table_not_in_vacuum_events (f : DPath → Bool) (p : DPath) :
    Ev.remove_table p ∉ vacuum_events f := by
  simp only [vacuum_events, List.mem_filterMap]
  rintro ⟨q, hq, he⟩
  by_cases hf : f q = true
  · rw [if_pos hf] at he
    cases he
  · rw [if_neg hf] at he
    cases he

/-- A table removal after lock acquisition forces a simple delta load whose
`latest_pk` path exists, and the removed table is `latest_pk`. -/
theorem remove_table_in_post_lock {K D : Type} [DecidableEq K] [DecidableEq D]
    [LinearOrder D] (e : Env K D) (p : DPath)
    (hp : Ev.remove_table p ∈ post_lock_events e) :
    p = DPath.latest_pk
    ∧ dispatch e.delta_exists e.load_mode e.delta_col e.pk_cols =
        LoadAction.delta_load true
    ∧ e.latest_pk_path_exists = true := by
  unfold post_lock_events action_events at hp
  cases hd : dispatch e.delta_exists e.load_mode e.delta_col e.pk_cols with
  | full m =>
    rw [hd] at hp
    cases m
    · simp [(full_load_no_remove p e.delta_col WMode.overwrite).1,
        remove_table_not_in_vacuum_events e.exists_for_vacuum p] at hp
    · simp [(full_load_no_remove p e.delta_col WMode.append).1,
        remove_table_not_in_vacuum_events e.exists_for_vacuum p] at hp
  | append_inserts_load c =>
    rw [hd] at hp
    simp [(append_inserts_no_remove p e.delta_1_count).1,
      remove_table_not_in_vacuum_events e.exists_for_vacuum p] at hp
  | delta_load simple =>
    rw [hd] at hp
    simp [remove_table_not_in_vacuum_events e.exists_for_vacuum p] at hp
    obtain ⟨h1, h2, h3⟩ := remove_table_in_delta_load e simple p hp
    exact ⟨h1, by rw [h2], h3⟩
  | config_error =>
    rw [hd] at hp
    simp at hp

/-- A vacuum after lock acquisition only touches the four `delta_load`
tables. -/
theorem vacuum_in_post_lock {K D : Type} [DecidableEq K] [DecidableEq D]
    [LinearOrder D] (e : Env K D) (p : DPath)
    (hp : Ev.vacuum p ∈ post_lock_events e) :
    p = DPath.latest_pk ∨ p = DPath.delta_1 ∨ p = DPath.delta_2
    ∨ p = DPath.primary_keys_ts := by
  unfold post_lock_events action_events at hp
  cases hd : dispatch e.delta_exists e.load_mode e.delta_col e.pk_cols with
  | full m =>
    rw [hd] at hp
    cases m
    · simp [(full_load_no_remove p e.delta_col WMode.overwrite).2] at hp
      exact mem_vacuum_events e.exists_for_vacuum p hp
    · simp [(full_load_no_remove p e.delta_col WMode.append).2] at hp
      exact mem_vacuum_events e.exists_for_vacuum p hp
  | append_inserts_load c =>
    rw [hd] at hp
    simp [(append_inserts_no_remove p e.delta_1_count).2] at hp
    exact mem_vacuum_events e.exists_for_vacuum p hp
  | delta_load simple =>
    rw [hd] at hp
    simp [vacuum_not_in_delta_load e simple p] at hp
    exact mem_vacuum_events e.exists_for_vacuum p hp
  | config_error =>
    rw [hd] at hp
    simp at hp

/-- Latest-pk survival (claim C9, amended): any table removal during a run
is the simple-delta removal of `delta_load/latest_pk` and only happens when
the dispatch picked a simple delta load over an existing manifest path;
every other load mode leaves `latest_pk` in place.  The post-run vacuums are
confined to `latest_pk`, `delta_1`, `delta_2` and `primary_keys_ts` (so
`latest_pk` is vacuumed, not only the transient tables). -/
theorem c9_latest_pk_survival_amended {K D : Type} [DecidableEq K] [DecidableEq D]
    [LinearOrder D] (e : Env K D) :
    (∀ p, Ev.remove_table p ∈ (exec_write_db_to_delta e).events →
      p = DPath.latest_pk
      ∧ dispatch e.delta_exists e.load_mode e.delta_col e.pk_cols =
          LoadAction.delta_load true
      ∧ e.latest_pk_path_exists = true)
    ∧ (∀ p, Ev.vacuum p ∈ (exec_write_db_to_delta e).events →
      p = DPath.latest_pk ∨ p = DPath.delta_1 ∨ p = DPath.delta_2
      ∨ p = DPath.primary_keys_ts) := by
  constructor
  · intro p hp
    simp only [exec_write_db_to_delta, List.mem_append, List.mem_cons,
      List.not_mem_nil, or_false] at hp
    rcases hp with ((h | h) | h) | h
    · cases h
    · cases h
    · exact absurd h (lock_acquire_no_remove e.lock_exists e.lock_age p).1
    · exact remove_table_in_post_lock e p h
  · intro p hp
    simp only [exec_write_db_to_delta, List.mem_append, List.mem_cons,
      List.not_mem_nil, or_false] at hp
    rcases hp with ((h | h) | h) | h
    · cases h
    · cases h
    · exact absurd h (lock_acquire_no_remove e.lock_exists e.lock_age p).2
    · exact vacuum_in_post_lock e p h

/-- Counterexample for C9 as stated: a successful simple delta load removes
the `delta_load/latest_pk` table, so `latest_pk` does not survive every
successful run. -/
theorem c9_counterexample :
    (exec_write_db_to_delta env_simple).ok = true
    ∧ Ev.remove_table DPath.latest_pk ∈ (exec_write_db_to_delta env_simple).events := by
  decide

/-- Witness for C9: the full-overwrite run over `env_lock_young` never
removes `delta_1` (nor any other table). -/
theorem c9_witness :
    Ev.remove_table DPath.delta_1 ∉ (exec_write_db_to_delta env_lock_young).events :=
  fun h =>
    absurd ((c9_latest_pk_survival_amended env_lock_young).1 DPath.delta_1 h).1
      (by decide)
